import Mathlib

/-!
Verification development for the bank-statement reconciliation subsystem of a
budgeting MCP server (`src/ynab-client.ts`): the fuzzy transaction matcher
(`matchBankTransactions`) and the reconcile-with-adjustment workflow
(`reconcileAccountWithAdjustment`).

Modelling conventions:
* Dates are calendar days modelled as integers (the source stores day-granular
  ISO strings; `new Date` differences are exact multiples of 86400000 ms, so
  `Math.ceil(|ms| / day)` is the exact day distance).
* Ledger amounts are milliunits (`Int`).  Bank amounts are carried directly in
  milliunits: the field models `Math.round(bankTx.amount * 1000)`, the single
  place the source converts decimal dollars.  Likewise `targetBalance` is
  carried as `Math.round(targetBalance * 1000)`.
* JavaScript string operations (`toLowerCase`, `trim`, `split(/\s+/)`,
  `includes`) are implemented over `List Char` so that every definition is
  kernel-executable; lowercasing is ASCII (the payees exercised here).
* JavaScript `Set` is modelled as a `List String` used only through membership.
* The remote ledger is an external collaborator; its responses are supplied as
  explicit values (`LedgerEnv` for the reconciler, a fetched transaction list
  for the matcher).  Thrown JS errors are `Except.error`.
-/

namespace Ynab

/-- Tri-state clearing status of a ledger transaction. -/
inductive ClearedStatus where
  | uncleared
  | cleared
  | reconciled
deriving DecidableEq, Repr

/-- Ledger (YNAB) transaction, the fields the matcher and reconciler read. -/
structure TransactionDetail where
  id : String
  date : Int
  amount : Int
  payee_name : Option String
  cleared : ClearedStatus
deriving DecidableEq, Repr

/-- Caller-supplied bank statement line.  `amount` is in milliunits and models
`Math.round(amount * 1000)` applied to the source's decimal-dollars field. -/
structure BankTransaction where
  date : Int
  amount : Int
  payee : Option String
deriving DecidableEq, Repr

/-- Match confidence tiers. -/
inductive Conf where
  | low
  | medium
  | high
  | exact
deriving DecidableEq, Repr

/-- Numeric order of confidence tiers (the source's `confidenceOrder` map). -/
def confOrder : Conf → Nat
  | .exact => 4
  | .high => 3
  | .medium => 2
  | .low => 1

/-- `dateDifference` from the source: `Math.ceil(|t2 - t1| / msPerDay)`, exact
for day-granular dates. -/
def dateDifference (date1 date2 : Int) : Nat :=
  (date2 - date1).natAbs

/-- `amountMatches` from the source: `|a1 - a2| <= tolerance`. -/
def amountMatches (amount1 amount2 : Int) (tolerance : Nat) : Bool :=
  (amount1 - amount2).natAbs ≤ tolerance

/-- JavaScript `toLowerCase` restricted to ASCII letters. -/
def toLowerChars (l : List Char) : List Char :=
  l.map Char.toLower

/-- JavaScript `trim`: drop leading and trailing whitespace. -/
def trimChars (l : List Char) : List Char :=
  ((l.dropWhile Char.isWhitespace).reverse.dropWhile Char.isWhitespace).reverse

/-- Does `needle` occur at the start of `hay`? -/
def startsWithChars : List Char → List Char → Bool
  | [], _ => true
  | _ :: _, [] => false
  | n :: ns, h :: hs => n == h && startsWithChars ns hs

/-- Does `needle` occur anywhere inside `hay`?  (JavaScript
`hay.includes(needle)`.) -/
def occursInChars (needle : List Char) : List Char → Bool
  | [] => needle.isEmpty
  | c :: hs => startsWithChars needle (c :: hs) || occursInChars needle hs

/-- Accumulator pass collecting maximal non-whitespace runs. -/
def splitWsAux : List Char → List Char → List (List Char)
  | [], acc => if acc.isEmpty then [] else [acc.reverse]
  | c :: cs, acc =>
    if c.isWhitespace then
      if acc.isEmpty then splitWsAux cs [] else acc.reverse :: splitWsAux cs []
    else splitWsAux cs (c :: acc)

/-- JavaScript `s.split(/\s+/)` as the source applies it (always to an
already-trimmed string): the whitespace-delimited tokens; splitting the empty
string yields `[""]`.  The guard makes the result structurally nonempty,
exactly as in JS where `split` never returns an empty array. -/
def jsSplitWS (l : List Char) : List (List Char) :=
  if (splitWsAux l []).isEmpty = true then [[]] else splitWsAux l []

/-- Number of tokens of `words1` that are a substring of, or contain, some
token of `words2` (the source's `matches` counter). -/
def tokenMatchCount (words1 words2 : List (List Char)) : Nat :=
  words1.countP (fun word1 =>
    words2.any (fun word2 => occursInChars word1 word2 || occursInChars word2 word1))

/-- `payeeSimilarity` from the source.  JS falsiness of a missing or empty
string is the first guard; then lowercase+trim, an exact-equality
short-circuit, and the token-match fraction over the larger token count. -/
def payeeSimilarity (payee1 payee2 : Option String) : ℚ :=
  match payee1, payee2 with
  | some s1, some s2 =>
    if (s1.data.isEmpty || s2.data.isEmpty) = true then 0
    else if trimChars (toLowerChars s1.data) = trimChars (toLowerChars s2.data) then 1
    else
      mkRat
        (tokenMatchCount (jsSplitWS (trimChars (toLowerChars s1.data)))
          (jsSplitWS (trimChars (toLowerChars s2.data))))
        (Nat.max (jsSplitWS (trimChars (toLowerChars s1.data))).length
          (jsSplitWS (trimChars (toLowerChars s2.data))).length)
  | _, _ => 0

/-- Modelled from the spec: "exact case-insensitive match after trimming = 1.0;
otherwise the fraction of whitespace-delimited tokens in the shorter payee
string that appear as a substring of, or contain, a token in the other
string."  Kept separate from `payeeSimilarity` (which is translated from the
source) so the two can be compared. -/
def payeeSimilaritySpec (payee1 payee2 : Option String) : ℚ :=
  match payee1, payee2 with
  | some s1, some s2 =>
    if trimChars (toLowerChars s1.data) = trimChars (toLowerChars s2.data) then 1
    else if (trimChars (toLowerChars s1.data)).length ≤ (trimChars (toLowerChars s2.data)).length
    then
      mkRat
        (tokenMatchCount (jsSplitWS (trimChars (toLowerChars s1.data)))
          (jsSplitWS (trimChars (toLowerChars s2.data))))
        (jsSplitWS (trimChars (toLowerChars s1.data))).length
    else
      mkRat
        (tokenMatchCount (jsSplitWS (trimChars (toLowerChars s2.data)))
          (jsSplitWS (trimChars (toLowerChars s1.data))))
        (jsSplitWS (trimChars (toLowerChars s2.data))).length
  | _, _ => 0

/-- Reason string for a close (non-exact) amount match.  The source prints the
two amounts in dollars; here they are rendered in milliunits. -/
def closeAmountReason (bankAmount ynabAmount : Int) : String :=
  s!"Amount within $1 (Bank: {bankAmount}, YNAB: {ynabAmount})"

/-- Reason string for a date match further than one day away. -/
def dateWithinReason (daysDiff : Nat) : String :=
  s!"Date within {daysDiff} days"

/-- The date reason string pushed by the source. -/
def dateReason (daysDiff : Nat) : String :=
  if daysDiff = 0 then "Same date"
  else if daysDiff = 1 then "Date within 1 day"
  else dateWithinReason daysDiff

/-- The payee reason strings pushed by the source (none below the 0.5 cut). -/
def payeeReasons (sim : ℚ) : List String :=
  if sim = 1 then ["Exact payee match"]
  else if mkRat 1 2 < sim then ["Similar payee name"]
  else []

/-- The source's confidence assignment chain (its `exactAmountMatch` local is
the Bool argument). -/
def assignConfidence (tolerance daysDiff : Nat) (exactAmountMatch : Bool) (sim : ℚ) : Conf :=
  if exactAmountMatch = true ∧ daysDiff = 0 ∧ sim = 1 then .exact
  else if exactAmountMatch = true ∧ daysDiff ≤ 1 ∧ mkRat 1 2 < sim then .high
  else if exactAmountMatch = true ∧ daysDiff ≤ tolerance then .medium
  else .low

/-- The source's amount check: the reason string when the amount is exact or
within the $1 slack, `none` when the candidate is skipped by `continue`. -/
def amountReason (bankAmount ynabAmount : Int) : Option String :=
  if (bankAmount == ynabAmount) = true then some "Exact amount match"
  else if amountMatches bankAmount ynabAmount 1000 = true then
    some (closeAmountReason bankAmount ynabAmount)
  else none

/-- The body of the source's inner candidate loop for one (bank, ledger) pair,
minus the used-id check: `none` when the pair is skipped by a `continue`
(date outside tolerance, or amount neither exact nor within $1), otherwise
the confidence tier and the reason strings accumulated for it.  The source's
locals (`daysDiff`, `exactAmountMatch`, `payeeSim`) are inlined. -/
def evalCandidate (tolerance : Nat) (bankTx : BankTransaction) (ynabTx : TransactionDetail) :
    Option (Conf × List String) :=
  if tolerance < dateDifference bankTx.date ynabTx.date then none
  else
    match amountReason bankTx.amount ynabTx.amount with
    | none => none
    | some ar =>
      some (assignConfidence tolerance (dateDifference bankTx.date ynabTx.date)
              (bankTx.amount == ynabTx.amount)
              (payeeSimilarity bankTx.payee ynabTx.payee_name),
            [ar, dateReason (dateDifference bankTx.date ynabTx.date)] ++
              payeeReasons (payeeSimilarity bankTx.payee ynabTx.payee_name))

/-- One proposed pairing in the match output. -/
structure TransactionMatch where
  bankTransaction : BankTransaction
  ynabTransaction : TransactionDetail
  matchConfidence : Conf
  matchReasons : List String
deriving DecidableEq, Repr

/-- Summary block of the match output.  `matchRate` is the real-valued rate
(the source computes it in floating point). -/
structure MatchSummary where
  totalBankTransactions : Nat
  totalYNABTransactions : Nat
  matchedCount : Nat
  matchRate : ℚ
deriving DecidableEq, Repr

/-- Output aggregate of `matchBankTransactions`. -/
structure TransactionMatchResult where
  matched : List TransactionMatch
  unmatchedBank : List BankTransaction
  unmatchedYNAB : List TransactionDetail
  summary : MatchSummary
deriving DecidableEq, Repr

/-- The source's inner `for (const ynabTx of ynabTransactions)` loop: running
best candidate, skipping used ids, replacing the best only on a strictly
higher confidence tier. -/
def scanCandidates (tolerance : Nat) (bankTx : BankTransaction) (used : List String) :
    List TransactionDetail → Option (TransactionDetail × Conf × List String) →
    Option (TransactionDetail × Conf × List String)
  | [], best => best
  | y :: ys, best =>
    if used.contains y.id then scanCandidates tolerance bankTx used ys best
    else
      match evalCandidate tolerance bankTx y with
      | none => scanCandidates tolerance bankTx used ys best
      | some (c, r) =>
        match best with
        | none => scanCandidates tolerance bankTx used ys (some (y, c, r))
        | some (t0, c0, r0) =>
          if confOrder c0 < confOrder c then scanCandidates tolerance bankTx used ys (some (y, c, r))
          else scanCandidates tolerance bankTx used ys (some (t0, c0, r0))

/-- The eligible candidates of one bank transaction, in ledger fetch order:
not yet consumed and surviving the date/amount gates of `evalCandidate`. -/
def eligList (tolerance : Nat) (bankTx : BankTransaction) (used : List String)
    (ynabTxs : List TransactionDetail) : List (TransactionDetail × Conf × List String) :=
  ynabTxs.filterMap (fun y =>
    if used.contains y.id then none
    else (evalCandidate tolerance bankTx y).map (fun p => (y, p.1, p.2)))

/-- `scanCandidates` restated as a fold over the eligible-candidate list. -/
def pickBest : List (TransactionDetail × Conf × List String) →
    Option (TransactionDetail × Conf × List String) →
    Option (TransactionDetail × Conf × List String)
  | [], best => best
  | x :: xs, none => pickBest xs (some x)
  | x :: xs, some b0 =>
    if confOrder b0.2.1 < confOrder x.2.1 then pickBest xs (some x) else pickBest xs (some b0)

/-- The source's outer `for (const bankTx of sortedBankTransactions)` loop,
threading the set of consumed ledger ids.  Returns the matched pairs, the
final used-id set and the unmatched bank transactions, each in push order. -/
def matchLoop (tolerance : Nat) (ynabTxs : List TransactionDetail) :
    List BankTransaction → List String →
    List TransactionMatch × List String × List BankTransaction
  | [], used => ([], used, [])
  | b :: bs, used =>
    match scanCandidates tolerance b used ynabTxs none with
    | some (t, c, r) =>
      let rest := matchLoop tolerance ynabTxs bs (t.id :: used)
      ({ bankTransaction := b, ynabTransaction := t, matchConfidence := c, matchReasons := r }
         :: rest.1,
       rest.2.1, rest.2.2)
    | none =>
      let rest := matchLoop tolerance ynabTxs bs used
      (rest.1, rest.2.1, b :: rest.2.2)

/-- Stable insertion of a bank transaction into a list already sorted by
descending absolute amount: walk past strictly larger keys only, so equal
keys keep their original relative order (JS `sort` is stable). -/
def insertByAbsDesc (x : BankTransaction) : List BankTransaction → List BankTransaction
  | [] => [x]
  | y :: ys =>
    if x.amount.natAbs < y.amount.natAbs then y :: insertByAbsDesc x ys else x :: y :: ys

/-- `[...bankTransactions].sort((a, b) => |b.amount| - |a.amount|)`: the stable
descending sort by absolute amount. -/
def sortByAbsDesc (l : List BankTransaction) : List BankTransaction :=
  l.foldr insertByAbsDesc []

/-- The pure core of `matchBankTransactions`, operating on the ledger
transactions the date-window filter retained. -/
def matchCore (tolerance : Nat) (bankTxs : List BankTransaction)
    (ynabTransactions : List TransactionDetail) : TransactionMatchResult :=
  let sorted := sortByAbsDesc bankTxs
  let loop := matchLoop tolerance ynabTransactions sorted []
  let matched := loop.1
  let used := loop.2.1
  let unmatchedBank := loop.2.2
  let unmatchedYNAB := ynabTransactions.filter (fun t => !(used.contains t.id))
  { matched := matched,
    unmatchedBank := unmatchedBank,
    unmatchedYNAB := unmatchedYNAB,
    summary :=
      { totalBankTransactions := bankTxs.length,
        totalYNABTransactions := ynabTransactions.length,
        matchedCount := matched.length,
        matchRate :=
          if 0 < bankTxs.length then mkRat matched.length bankTxs.length else 0 } }

/-- The ledger transactions the matcher actually considers: the service
response filtered by `tDate <= maxDate`, where `maxDate` is the largest bank
date plus the tolerance (the `minDate` bound only parameterises the external
fetch).  Empty bank input never reaches this point in the source. -/
def ledgerWindow (bankTxs : List BankTransaction) (tolerance : Nat)
    (fetched : List TransactionDetail) : List TransactionDetail :=
  match bankTxs with
  | [] => []
  | b :: bs =>
    let maxDate := bs.foldl (fun m t => Max.max m t.date) b.date
    fetched.filter (fun t => t.date ≤ maxDate + tolerance)

/-- `matchBankTransactions`.  `fetched` is the transaction list returned by the
external `getAccountTransactions` call.  With an empty bank list the source
computes `Math.min()` of no dates, producing an Invalid Date whose
`toISOString()` throws `RangeError: Invalid time value` before any matching
happens; that thrown error is the `Except.error` branch. -/
def matchBankTransactions (bankTxs : List BankTransaction)
    (fetched : List TransactionDetail) (tolerance : Nat) :
    Except String TransactionMatchResult :=
  match bankTxs with
  | [] => .error "Invalid time value"
  | b :: bs => .ok (matchCore tolerance (b :: bs) (ledgerWindow (b :: bs) tolerance fetched))

/-- Account record as read by the reconciler (balance in milliunits). -/
structure Account where
  name : String
  balance : Int
deriving DecidableEq, Repr

/-- Payee record as read by the reconciler. -/
structure Payee where
  id : String
  name : String
deriving DecidableEq, Repr

/-- One entry of the batched status-update request built in step 3. -/
structure UpdateTx where
  id : String
  cleared : ClearedStatus
deriving DecidableEq, Repr

/-- Draft transaction submitted by `createTransaction`. -/
structure SaveTransaction where
  account_id : String
  date : Int
  amount : Int
  payee_id : Option String
  payee_name : Option String
  category_id : Option String
  memo : String
  cleared : ClearedStatus
  approved : Bool
deriving DecidableEq, Repr

/-- `ReconciliationResult` returned by the reconciler.  `errors` is the
accumulated warning list, `none` when it stayed empty (`undefined` in JS). -/
structure ReconciliationResult where
  account_id : String
  account_name : String
  reconciliation_date : Int
  transactions_reconciled : Nat
  starting_balance : Int
  target_balance : Int
  actual_balance : Int
  adjustment_needed : Int
  adjustment_created : Bool
  adjustment_transaction : Option TransactionDetail
  errors : Option (List String)
deriving DecidableEq, Repr

/-- The remote ledger's responses to the calls `reconcileAccountWithAdjustment`
issues, in source order: the initial account lookup, the transaction fetch,
the batched status update, the post-mark account re-fetch, the payee list and
the adjustment-transaction creation.  Each call happens at most once per run;
a thrown JS error is the `.error` branch. -/
structure LedgerEnv where
  getAccount1 : Except String Account
  getAccountTransactions : Except String (List TransactionDetail)
  bulkUpdateTransactions : List UpdateTx → Except String (List TransactionDetail)
  getAccount2 : Except String Account
  getPayees : Except String (List Payee)
  createTransaction : SaveTransaction → Except String TransactionDetail

/-- System payee id hard-coded in the source for reconciliation adjustments. -/
def RECONCILIATION_PAYEE_ID : String := "f942249d-8be6-4c16-8cb8-3007897cdfc8"

/-- System inflow category id hard-coded in the source. -/
def INFLOW_CATEGORY_ID : String := "27e74120-8c36-43df-bac2-2ac4b033879e"

/-- Default adjustment memo.  The source interpolates the target in dollars via
`toFixed(2)`; rendered here from the milliunit value. -/
def defaultAdjustmentMemo (targetBalanceMilliunits : Int) : String :=
  s!"Reconciliation adjustment to match balance of {targetBalanceMilliunits} milliunits"

/-- `adjustmentMemo || defaultMemo`: JS falsiness sends the empty string to the
default as well. -/
def resolveMemo (adjustmentMemo : Option String) (targetBalanceMilliunits : Int) : String :=
  match adjustmentMemo with
  | some m => if m = "" then defaultAdjustmentMemo targetBalanceMilliunits else m
  | none => defaultAdjustmentMemo targetBalanceMilliunits

/-- The adjustment transaction draft built in step 5 of the source. -/
def adjustmentDraft (accountId : String) (reconciliationDate adjustmentNeeded : Int)
    (payeeFound : Bool) (memo : String) : SaveTransaction :=
  { account_id := accountId,
    date := reconciliationDate,
    amount := adjustmentNeeded,
    payee_id := if payeeFound then some RECONCILIATION_PAYEE_ID else none,
    payee_name := if payeeFound then none else some "Manual Balance Adjustment",
    category_id := if 0 < adjustmentNeeded then some INFLOW_CATEGORY_ID else none,
    memo := memo,
    cleared := .reconciled,
    approved := true }

/-- The payee-not-found warning pushed by step 5 of the source. -/
def payeeWarnings (payeeFound : Bool) : List String :=
  if payeeFound = true then []
  else ["System reconciliation payee not found. Using manual adjustment instead."]

/-- Step 5 of the source: the `try { getPayees; ...; createTransaction }
catch { warning }` block.  Returns (created?, created transaction, warnings
pushed by this step).  The source's `payeeFound` local is inlined. -/
def createAdjustmentStep (env : LedgerEnv) (accountId : String)
    (reconciliationDate adjustmentNeeded : Int) (memo : String) :
    Bool × Option TransactionDetail × List String :=
  match env.getPayees with
  | .error e => (false, none, ["Failed to create adjustment transaction: " ++ e])
  | .ok payees =>
    match env.createTransaction
        (adjustmentDraft accountId reconciliationDate adjustmentNeeded
          (payees.any (fun p => p.id == RECONCILIATION_PAYEE_ID)) memo) with
    | .ok tx =>
      (true, some tx, payeeWarnings (payees.any (fun p => p.id == RECONCILIATION_PAYEE_ID)))
    | .error e =>
      (false, none, payeeWarnings (payees.any (fun p => p.id == RECONCILIATION_PAYEE_ID)) ++
        ["Failed to create adjustment transaction: " ++ e])

/-- The transactions step 3 of the source selects for marking: dated at or
before the reconciliation date and currently `cleared` or `uncleared`. -/
def transactionsToReconcile (reconciliationDate : Int) (allTxs : List TransactionDetail) :
    List TransactionDetail :=
  allTxs.filter (fun t =>
    t.date ≤ reconciliationDate &&
      (t.cleared == ClearedStatus.cleared || t.cleared == ClearedStatus.uncleared))

/-- Step 3 of the source: the batched status update inside its own
`try/catch`.  Returns the reported reconciled count and the warnings this
step pushes: the count is the length of whatever list the response carries
(also when shorter than the request, with no warning), 0 with a warning when
the call throws, and (0, no warnings) when nothing needed marking. -/
def markStepOf (env : LedgerEnv) (reconciliationDate : Int)
    (allTxs : List TransactionDetail) : Nat × List String :=
  if (transactionsToReconcile reconciliationDate allTxs).isEmpty = true then (0, [])
  else
    match env.bulkUpdateTransactions
        ((transactionsToReconcile reconciliationDate allTxs).map
          (fun t => { id := t.id, cleared := .reconciled })) with
    | .ok updated => (updated.length, [])
    | .error e => (0, ["Failed to update some transactions: " ++ e])

/-- Step 5 gate of the source: the adjustment block runs only when the
discrepancy is nonzero and `createAdjustment` is set. -/
def adjStepOf (env : LedgerEnv) (accountId : String)
    (targetBalanceMilliunits reconciliationDate : Int) (createAdjustment : Bool)
    (adjustmentMemo : Option String) (updatedAccount : Account) :
    Bool × Option TransactionDetail × List String :=
  if targetBalanceMilliunits - updatedAccount.balance ≠ 0 ∧ createAdjustment = true then
    createAdjustmentStep env accountId reconciliationDate
      (targetBalanceMilliunits - updatedAccount.balance)
      (resolveMemo adjustmentMemo targetBalanceMilliunits)
  else (false, none, [])

/-- The `ReconciliationResult` the source assembles once the three fetches
have succeeded (`account` pre-mark, `allTxs` the fetched transactions,
`updatedAccount` the post-mark re-fetch). -/
def reconcileOutcome (env : LedgerEnv) (accountId : String)
    (targetBalanceMilliunits reconciliationDate : Int) (createAdjustment : Bool)
    (adjustmentMemo : Option String) (account : Account)
    (allTxs : List TransactionDetail) (updatedAccount : Account) : ReconciliationResult :=
  { account_id := accountId,
    account_name := account.name,
    reconciliation_date := reconciliationDate,
    transactions_reconciled := (markStepOf env reconciliationDate allTxs).1,
    starting_balance := account.balance,
    target_balance := targetBalanceMilliunits,
    actual_balance :=
      if (adjStepOf env accountId targetBalanceMilliunits reconciliationDate
          createAdjustment adjustmentMemo updatedAccount).1
      then targetBalanceMilliunits else updatedAccount.balance,
    adjustment_needed := targetBalanceMilliunits - updatedAccount.balance,
    adjustment_created := (adjStepOf env accountId targetBalanceMilliunits reconciliationDate
      createAdjustment adjustmentMemo updatedAccount).1,
    adjustment_transaction := (adjStepOf env accountId targetBalanceMilliunits reconciliationDate
      createAdjustment adjustmentMemo updatedAccount).2.1,
    errors :=
      if ((markStepOf env reconciliationDate allTxs).2 ++
          (adjStepOf env accountId targetBalanceMilliunits reconciliationDate
            createAdjustment adjustmentMemo updatedAccount).2.2).isEmpty = true
      then none
      else some ((markStepOf env reconciliationDate allTxs).2 ++
        (adjStepOf env accountId targetBalanceMilliunits reconciliationDate
          createAdjustment adjustmentMemo updatedAccount).2.2) }

/-- `reconcileAccountWithAdjustment`.  `targetBalanceMilliunits` models
`Math.round(targetBalance * 1000)`.  The body mirrors the source: the initial
account lookup, the transaction fetch and the post-mark account re-fetch sit
directly inside the outer `try`, so their failures re-throw as
`Reconciliation failed: ...`; the batched update (step 3, `markStepOf`) and
the adjustment creation (step 5, `adjStepOf`) have their own `try/catch` and
only push warnings into the assembled outcome (`reconcileOutcome`). -/
def reconcileAccountWithAdjustment (env : LedgerEnv) (accountId : String)
    (targetBalanceMilliunits reconciliationDate : Int) (createAdjustment : Bool)
    (adjustmentMemo : Option String) : Except String ReconciliationResult :=
  match env.getAccount1 with
  | .error e => .error ("Reconciliation failed: " ++ e)
  | .ok account =>
    match env.getAccountTransactions with
    | .error e => .error ("Reconciliation failed: " ++ e)
    | .ok allTxs =>
      match env.getAccount2 with
      | .error e => .error ("Reconciliation failed: " ++ e)
      | .ok updatedAccount =>
        .ok (reconcileOutcome env accountId targetBalanceMilliunits reconciliationDate
          createAdjustment adjustmentMemo account allTxs updatedAccount)

/-! ### Concrete fixtures used by witnesses and counterexamples -/

/-- Bank-side fixture used by the matcher witnesses. -/
def wBank : BankTransaction := { date := 0, amount := -45000, payee := some "Acme Store" }

/-- Ledger-side fixture used by the matcher witnesses. -/
def wLedger : TransactionDetail :=
  { id := "y1", date := 0, amount := -45000, payee_name := some "Acme Store",
    cleared := .uncleared }

/-- Result fixture produced by the matcher witnesses. -/
def wRes : TransactionMatchResult := matchCore 3 [wBank] (ledgerWindow [wBank] 3 [wLedger])

/-- The single match `wRes` contains. -/
def wMatch : TransactionMatch :=
  { bankTransaction := wBank, ynabTransaction := wLedger, matchConfidence := .exact,
    matchReasons := ["Exact amount match", "Same date", "Exact payee match"] }

/-- Environment used by the C4 counterexample and witness: one transaction
needs marking but the batched update reports an empty result list. -/
def envShort : LedgerEnv :=
  { getAccount1 := .ok { name := "Checking", balance := -500 },
    getAccountTransactions := .ok
      [{ id := "t1", date := 0, amount := -500, payee_name := none, cleared := .uncleared }],
    bulkUpdateTransactions := fun _ => .ok [],
    getAccount2 := .ok { name := "Checking", balance := -500 },
    getPayees := .ok [],
    createTransaction := fun d =>
      .ok { id := "adj", date := d.date, amount := d.amount, payee_name := d.payee_name,
            cleared := d.cleared } }

/-- Environment used by the C6 witness: the spec scenario with target $120.00
against a post-mark balance of 118500 milliunits. -/
def envAdj : LedgerEnv :=
  { getAccount1 := .ok { name := "Checking", balance := 119000 },
    getAccountTransactions := .ok [],
    bulkUpdateTransactions := fun _ => .ok [],
    getAccount2 := .ok { name := "Checking", balance := 118500 },
    getPayees := .ok
      [{ id := RECONCILIATION_PAYEE_ID, name := "Reconciliation Balance Adjustment" }],
    createTransaction := fun d =>
      .ok { id := "adj", date := d.date, amount := d.amount, payee_name := d.payee_name,
            cleared := d.cleared } }

/-- Environment used by the C10 witness: like the C6 scenario but the
adjustment-transaction creation call throws. -/
def envAdjFail : LedgerEnv :=
  { getAccount1 := .ok { name := "Checking", balance := 119000 },
    getAccountTransactions := .ok [],
    bulkUpdateTransactions := fun _ => .ok [],
    getAccount2 := .ok { name := "Checking", balance := 118500 },
    getPayees := .ok
      [{ id := RECONCILIATION_PAYEE_ID, name := "Reconciliation Balance Adjustment" }],
    createTransaction := fun _ => .error "create failed" }

/-! ### Lemmas about the bank-transaction sort -/

theorem insertByAbsDesc_perm (x : BankTransaction) (l : List BankTransaction) :
    List.Perm (insertByAbsDesc x l) (x :: l) := by
  induction l with
  | nil => simp [insertByAbsDesc]
  | cons y ys ih =>
    simp only [insertByAbsDesc]
    split
    · exact (ih.cons y).trans (List.Perm.swap x y ys)
    · exact List.Perm.refl _

theorem sortByAbsDesc_perm (l : List BankTransaction) :
    List.Perm (sortByAbsDesc l) l := by
  induction l with
  | nil => simp [sortByAbsDesc]
  | cons a l ih =>
    have h1 : sortByAbsDesc (a :: l) = insertByAbsDesc a (sortByAbsDesc l) := rfl
    rw [h1]
    exact (insertByAbsDesc_perm a (sortByAbsDesc l)).trans (ih.cons a)

theorem sortByAbsDesc_length (l : List BankTransaction) :
    (sortByAbsDesc l).length = l.length :=
  (sortByAbsDesc_perm l).length_eq

theorem insertByAbsDesc_pairwise (x : BankTransaction) {l : List BankTransaction}
    (h : l.Pairwise (fun a b => b.amount.natAbs ≤ a.amount.natAbs)) :
    (insertByAbsDesc x l).Pairwise (fun a b => b.amount.natAbs ≤ a.amount.natAbs) := by
  induction l with
  | nil => simp [insertByAbsDesc]
  | cons y ys ih =>
    rcases List.pairwise_cons.mp h with ⟨hy, hys⟩
    simp only [insertByAbsDesc]
    split
    · rename_i hlt
      refine List.pairwise_cons.mpr ⟨?_, ih hys⟩
      intro b hb
      have hb2 : b ∈ x :: ys := (insertByAbsDesc_perm x ys).mem_iff.mp hb
      rcases List.mem_cons.mp hb2 with rfl | hbys
      · exact Nat.le_of_lt hlt
      · exact hy b hbys
    · rename_i hge
      refine List.pairwise_cons.mpr ⟨?_, h⟩
      intro b hb
      rcases List.mem_cons.mp hb with rfl | hbys
      · exact Nat.le_of_not_lt hge
      · exact Nat.le_trans (hy b hbys) (Nat.le_of_not_lt hge)

theorem sortByAbsDesc_pairwise (l : List BankTransaction) :
    (sortByAbsDesc l).Pairwise (fun a b => b.amount.natAbs ≤ a.amount.natAbs) := by
  induction l with
  | nil => simp [sortByAbsDesc]
  | cons a l ih => exact insertByAbsDesc_pairwise a ih

/-! ### Lemmas about the candidate scan -/

theorem eligList_cons_skip {tolerance : Nat} {bankTx : BankTransaction} {used : List String}
    {y : TransactionDetail} (ys : List TransactionDetail)
    (h : (if used.contains y.id = true then none
          else (evalCandidate tolerance bankTx y).map (fun p => (y, p.1, p.2))) = none) :
    eligList tolerance bankTx used (y :: ys) = eligList tolerance bankTx used ys := by
  unfold eligList
  rw [List.filterMap_cons]
  simp only [h]

theorem eligList_cons_keep {tolerance : Nat} {bankTx : BankTransaction} {used : List String}
    {y : TransactionDetail} {c : Conf} {r : List String} (ys : List TransactionDetail)
    (h : (if used.contains y.id = true then none
          else (evalCandidate tolerance bankTx y).map (fun p => (y, p.1, p.2)))
         = some (y, c, r)) :
    eligList tolerance bankTx used (y :: ys) = (y, c, r) :: eligList tolerance bankTx used ys := by
  unfold eligList
  rw [List.filterMap_cons]
  simp only [h]

theorem scanCandidates_eq_pickBest (tolerance : Nat) (bankTx : BankTransaction)
    (used : List String) (ys : List TransactionDetail)
    (best : Option (TransactionDetail × Conf × List String)) :
    scanCandidates tolerance bankTx used ys best =
      pickBest (eligList tolerance bankTx used ys) best := by
  induction ys generalizing best with
  | nil => rfl
  | cons y ys ih =>
    by_cases hc : used.contains y.id = true
    · have h1 : scanCandidates tolerance bankTx used (y :: ys) best =
          scanCandidates tolerance bankTx used ys best := by
        simp only [scanCandidates]
        rw [if_pos hc]
      rw [h1, eligList_cons_skip ys (by rw [if_pos hc]), ih]
    · have hcf : used.contains y.id = false := Bool.eq_false_iff.mpr hc
      cases hev : evalCandidate tolerance bankTx y with
      | none =>
        have h1 : scanCandidates tolerance bankTx used (y :: ys) best =
            scanCandidates tolerance bankTx used ys best := by
          simp only [scanCandidates]
          rw [if_neg hc, hev]
        rw [h1, eligList_cons_skip ys (by rw [if_neg hc, hev]; rfl), ih]
      | some cr =>
        obtain ⟨c, r⟩ := cr
        have hkeep : eligList tolerance bankTx used (y :: ys) =
            (y, c, r) :: eligList tolerance bankTx used ys :=
          eligList_cons_keep ys (by rw [if_neg hc, hev]; rfl)
        cases best with
        | none =>
          have h1 : scanCandidates tolerance bankTx used (y :: ys) none =
              scanCandidates tolerance bankTx used ys (some (y, c, r)) := by
            simp only [scanCandidates]
            rw [if_neg hc, hev]
          rw [h1, hkeep, ih]
          rfl
        | some b0 =>
          have h1 : scanCandidates tolerance bankTx used (y :: ys) (some b0) =
              if confOrder b0.2.1 < confOrder c then
                scanCandidates tolerance bankTx used ys (some (y, c, r))
              else scanCandidates tolerance bankTx used ys (some b0) := by
            simp only [scanCandidates]
            rw [if_neg hc, hev]
          rw [h1, hkeep]
          by_cases hord : confOrder b0.2.1 < confOrder c


          · rw [if_pos hord, ih]
            show pickBest _ _ = pickBest _ _
            have h2 : pickBest ((y, c, r) :: eligList tolerance bankTx used ys) (some b0) =
                pickBest (eligList tolerance bankTx used ys) (some (y, c, r)) := by
              simp only [pickBest]
              rw [if_pos hord]
            rw [h2]
          · rw [if_neg hord, ih]
            have h2 : pickBest ((y, c, r) :: eligList tolerance bankTx used ys) (some b0) =
                pickBest (eligList tolerance bankTx used ys) (some b0) := by
              simp only [pickBest]
              rw [if_neg hord]
            rw [h2]

theorem eligList_mem {tolerance : Nat} {bankTx : BankTransaction} {used : List String}
    {ys : List TransactionDetail} {x : TransactionDetail × Conf × List String}
    (h : x ∈ eligList tolerance bankTx used ys) :
    x.1 ∈ ys ∧ used.contains x.1.id = false ∧
      evalCandidate tolerance bankTx x.1 = some (x.2.1, x.2.2) := by
  rcases List.mem_filterMap.mp h with ⟨y, hy, hmap⟩
  by_cases hc : used.contains y.id = true
  · rw [if_pos hc] at hmap
    exact absurd hmap (by simp)
  · rw [if_neg hc] at hmap
    rcases Option.map_eq_some'.mp hmap with ⟨p, hev, hx⟩
    subst hx
    exact ⟨hy, Bool.eq_false_iff.mpr hc, by simpa using hev⟩

theorem pickBest_mem {l : List (TransactionDetail × Conf × List String)}
    {b : Option (TransactionDetail × Conf × List String)}
    {bf : TransactionDetail × Conf × List String}
    (h : pickBest l b = some bf) : b = some bf ∨ bf ∈ l := by
  induction l generalizing b with
  | nil => exact Or.inl h
  | cons x xs ih =>
    cases b with
    | none =>
      have h' : pickBest xs (some x) = some bf := h
      rcases ih h' with hb | hmem
      · exact Or.inr (by rw [Option.some.injEq] at hb; rw [hb]; exact List.mem_cons_self bf xs)
      · exact Or.inr (List.mem_cons_of_mem x hmem)
    | some b0 =>
      simp only [pickBest] at h
      split at h
      · rcases ih h with hb | hmem
        · exact Or.inr (by rw [Option.some.injEq] at hb; rw [hb]; exact List.mem_cons_self bf xs)
        · exact Or.inr (List.mem_cons_of_mem x hmem)
      · rcases ih h with hb | hmem
        · exact Or.inl hb
        · exact Or.inr (List.mem_cons_of_mem x hmem)

theorem pickBest_max {l : List (TransactionDetail × Conf × List String)}
    {b0 bf : TransactionDetail × Conf × List String}
    (h : pickBest l (some b0) = some bf) :
    (bf = b0 ∧ ∀ x ∈ l, confOrder x.2.1 ≤ confOrder b0.2.1) ∨
    (confOrder b0.2.1 < confOrder bf.2.1 ∧ ∃ l1 l2, l = l1 ++ bf :: l2 ∧
      (∀ x ∈ l1, confOrder x.2.1 < confOrder bf.2.1) ∧
      (∀ x ∈ l2, confOrder x.2.1 ≤ confOrder bf.2.1)) := by
  induction l generalizing b0 with
  | nil =>
    left
    refine ⟨(Option.some.injEq _ _ ▸ h).symm ▸ rfl, ?_⟩
    · intro x hx
      exact absurd hx (List.not_mem_nil x)
  | cons x xs ih =>
    simp only [pickBest] at h
    split at h
    · rename_i hlt
      rcases ih h with ⟨hbf, hall⟩ | ⟨hlt2, l1, l2, heq, h1, h2⟩
      · subst hbf
        right
        refine ⟨hlt, [], xs, rfl, ?_, hall⟩
        intro z hz
        exact absurd hz (List.not_mem_nil z)
      · right
        refine ⟨Nat.lt_trans hlt hlt2, x :: l1, l2, by rw [heq, List.cons_append], ?_, h2⟩
        intro z hz
        rcases List.mem_cons.mp hz with rfl | hzl1
        · exact hlt2
        · exact h1 z hzl1
    · rename_i hge
      rcases ih h with ⟨hbf, hall⟩ | ⟨hlt2, l1, l2, heq, h1, h2⟩
      · subst hbf
        left
        refine ⟨rfl, ?_⟩
        intro z hz
        rcases List.mem_cons.mp hz with rfl | hzxs
        · exact Nat.le_of_not_lt hge
        · exact hall z hzxs
      · right
        refine ⟨hlt2, x :: l1, l2, by rw [heq, List.cons_append], ?_, h2⟩
        intro z hz
        rcases List.mem_cons.mp hz with rfl | hzl1
        · exact Nat.lt_of_le_of_lt (Nat.le_of_not_lt hge) hlt2
        · exact h1 z hzl1

theorem scanCandidates_first_max {tolerance : Nat} {bankTx : BankTransaction}
    {used : List String} {ys : List TransactionDetail}
    {bf : TransactionDetail × Conf × List String}
    (h : scanCandidates tolerance bankTx used ys none = some bf) :
    ∃ l1 l2, eligList tolerance bankTx used ys = l1 ++ bf :: l2 ∧
      (∀ x ∈ l1, confOrder x.2.1 < confOrder bf.2.1) ∧
      (∀ x ∈ l2, confOrder x.2.1 ≤ confOrder bf.2.1) := by
  rw [scanCandidates_eq_pickBest] at h
  cases helig : eligList tolerance bankTx used ys with
  | nil =>
    rw [helig] at h
    exact absurd h (by simp [pickBest])
  | cons c0 rest =>
    rw [helig] at h
    have h' : pickBest rest (some c0) = some bf := h
    rcases pickBest_max h' with ⟨hbf, hall⟩ | ⟨hlt, l1, l2, heq, h1, h2⟩
    · subst hbf
      exact ⟨[], rest, rfl, fun z hz => absurd hz (List.not_mem_nil z), hall⟩
    · refine ⟨c0 :: l1, l2, by rw [heq, List.cons_append], ?_, h2⟩
      intro z hz
      rcases List.mem_cons.mp hz with rfl | hzl1
      · exact hlt
      · exact h1 z hzl1

theorem scanCandidates_some_elig {tolerance : Nat} {bankTx : BankTransaction}
    {used : List String} {ys : List TransactionDetail}
    {bf : TransactionDetail × Conf × List String}
    (h : scanCandidates tolerance bankTx used ys none = some bf) :
    bf.1 ∈ ys ∧ used.contains bf.1.id = false ∧
      evalCandidate tolerance bankTx bf.1 = some (bf.2.1, bf.2.2) := by
  rw [scanCandidates_eq_pickBest] at h
  rcases pickBest_mem h with hb | hmem
  · exact absurd hb (by simp)
  · exact eligList_mem hmem

/-! ### Lemmas about the greedy matching loop -/

theorem matchLoop_cons_some {tolerance : Nat} {ys : List TransactionDetail}
    {b : BankTransaction} {bs : List BankTransaction} {used : List String}
    {t : TransactionDetail} {c : Conf} {r : List String}
    (hscan : scanCandidates tolerance b used ys none = some (t, c, r)) :
    matchLoop tolerance ys (b :: bs) used =
      ({ bankTransaction := b, ynabTransaction := t, matchConfidence := c, matchReasons := r }
         :: (matchLoop tolerance ys bs (t.id :: used)).1,
       (matchLoop tolerance ys bs (t.id :: used)).2.1,
       (matchLoop tolerance ys bs (t.id :: used)).2.2) := by
  simp only [matchLoop]
  rw [hscan]

theorem matchLoop_cons_none {tolerance : Nat} {ys : List TransactionDetail}
    {b : BankTransaction} {bs : List BankTransaction} {used : List String}
    (hscan : scanCandidates tolerance b used ys none = none) :
    matchLoop tolerance ys (b :: bs) used =
      ((matchLoop tolerance ys bs used).1,
       (matchLoop tolerance ys bs used).2.1,
       b :: (matchLoop tolerance ys bs used).2.2) := by
  simp only [matchLoop]
  rw [hscan]

theorem matchLoop_length (tolerance : Nat) (ys : List TransactionDetail) :
    ∀ (bs : List BankTransaction) (used : List String),
      (matchLoop tolerance ys bs used).1.length +
        (matchLoop tolerance ys bs used).2.2.length = bs.length := by
  intro bs
  induction bs with
  | nil => intro used; rfl
  | cons b bs ih =>
    intro used
    cases hscan : scanCandidates tolerance b used ys none with
    | some tcr =>
      obtain ⟨t, c, r⟩ := tcr
      rw [matchLoop_cons_some hscan]
      have := ih (t.id :: used)
      simp only [List.length_cons]
      omega
    | none =>
      rw [matchLoop_cons_none hscan]
      have := ih used
      simp only [List.length_cons]
      omega

theorem matchLoop_ids (tolerance : Nat) (ys : List TransactionDetail) :
    ∀ (bs : List BankTransaction) (used : List String),
      (∀ m ∈ (matchLoop tolerance ys bs used).1,
          m.ynabTransaction.id ∈ (matchLoop tolerance ys bs used).2.1 ∧
          m.ynabTransaction.id ∉ used) ∧
      ((matchLoop tolerance ys bs used).1.map (fun m => m.ynabTransaction.id)).Nodup ∧
      (∀ s ∈ used, s ∈ (matchLoop tolerance ys bs used).2.1) := by
  intro bs
  induction bs with
  | nil =>
    intro used
    refine ⟨?_, ?_, ?_⟩
    · intro m hm
      exact absurd hm (List.not_mem_nil m)
    · exact List.nodup_nil
    · intro s hs
      exact hs
  | cons b bs ih =>
    intro used
    cases hscan : scanCandidates tolerance b used ys none with
    | some tcr =>
      obtain ⟨t, c, r⟩ := tcr
      rw [matchLoop_cons_some hscan]
      obtain ⟨ih1, ih2, ih3⟩ := ih (t.id :: used)
      have htid_not_used : t.id ∉ used := by
        have hcf := (scanCandidates_some_elig hscan).2.1
        simpa using hcf
      refine ⟨?_, ?_, ?_⟩
      · intro m hm
        rcases List.mem_cons.mp hm with rfl | hmem
        · exact ⟨ih3 t.id (List.mem_cons_self t.id used), htid_not_used⟩
        · refine ⟨(ih1 m hmem).1, ?_⟩
          intro habs
          exact (ih1 m hmem).2 (List.mem_cons_of_mem t.id habs)
      · simp only [List.map_cons]
        refine List.nodup_cons.mpr ⟨?_, ih2⟩
        intro habs
        rcases List.mem_map.mp habs with ⟨m, hm, hid⟩
        exact (ih1 m hm).2 (hid ▸ List.mem_cons_self t.id used)
      · intro s hs
        exact ih3 s (List.mem_cons_of_mem t.id hs)
    | none =>
      rw [matchLoop_cons_none hscan]
      exact ih used

theorem matchLoop_matched_eval (tolerance : Nat) (ys : List TransactionDetail) :
    ∀ (bs : List BankTransaction) (used : List String),
      ∀ m ∈ (matchLoop tolerance ys bs used).1,
        m.bankTransaction ∈ bs ∧ m.ynabTransaction ∈ ys ∧
        evalCandidate tolerance m.bankTransaction m.ynabTransaction =
          some (m.matchConfidence, m.matchReasons) := by
  intro bs
  induction bs with
  | nil =>
    intro used m hm
    exact absurd hm (List.not_mem_nil m)
  | cons b bs ih =>
    intro used m hm
    cases hscan : scanCandidates tolerance b used ys none with
    | some tcr =>
      obtain ⟨t, c, r⟩ := tcr
      rw [matchLoop_cons_some hscan] at hm
      rcases List.mem_cons.mp hm with rfl | hmem
      · obtain ⟨hmem, _, hev⟩ := scanCandidates_some_elig hscan
        exact ⟨List.mem_cons_self b bs, hmem, hev⟩
      · obtain ⟨hb, hy, hev⟩ := ih (t.id :: used) m hmem
        exact ⟨List.mem_cons_of_mem b hb, hy, hev⟩
    | none =>
      rw [matchLoop_cons_none hscan] at hm
      obtain ⟨hb, hy, hev⟩ := ih used m hm
      exact ⟨List.mem_cons_of_mem b hb, hy, hev⟩

/-! ### Unfolding lemmas for `matchCore` and `matchBankTransactions` -/

theorem matchCore_matched (tolerance : Nat) (bankTxs : List BankTransaction)
    (ys : List TransactionDetail) :
    (matchCore tolerance bankTxs ys).matched =
      (matchLoop tolerance ys (sortByAbsDesc bankTxs) []).1 := rfl

theorem matchCore_unmatchedBank (tolerance : Nat) (bankTxs : List BankTransaction)
    (ys : List TransactionDetail) :
    (matchCore tolerance bankTxs ys).unmatchedBank =
      (matchLoop tolerance ys (sortByAbsDesc bankTxs) []).2.2 := rfl

theorem matchCore_unmatchedYNAB (tolerance : Nat) (bankTxs : List BankTransaction)
    (ys : List TransactionDetail) :
    (matchCore tolerance bankTxs ys).unmatchedYNAB =
      ys.filter (fun t =>
        !((matchLoop tolerance ys (sortByAbsDesc bankTxs) []).2.1.contains t.id)) := rfl

theorem matchBankTransactions_ok {bankTxs : List BankTransaction}
    {fetched : List TransactionDetail} {tolerance : Nat} {res : TransactionMatchResult}
    (h : matchBankTransactions bankTxs fetched tolerance = .ok res) :
    bankTxs ≠ [] ∧
      res = matchCore tolerance bankTxs (ledgerWindow bankTxs tolerance fetched) := by
  cases bankTxs with
  | nil => exact absurd h (by simp [matchBankTransactions])
  | cons b bs =>
    refine ⟨by simp, ?_⟩
    simp only [matchBankTransactions, Except.ok.injEq] at h
    exact h.symm

theorem ledgerWindow_sublist (bankTxs : List BankTransaction) (tolerance : Nat)
    (fetched : List TransactionDetail) :
    (ledgerWindow bankTxs tolerance fetched).Sublist fetched := by
  cases bankTxs with
  | nil => exact List.nil_sublist fetched
  | cons b bs => exact List.filter_sublist fetched

/-! ### Claim theorems for the matcher -/

/-- Claim C1: whenever `matchBankTransactions` returns a result, the matched
and unmatched-bank lists partition the bank input by count, and (for ledger
inputs with the unique ids the data model guarantees) every ledger id occurs
at most once across the matched pairs and the unmatched-ledger list. -/
theorem matchBankTransactions_partition
    (bankTxs : List BankTransaction) (fetched : List TransactionDetail)
    (tolerance : Nat) (res : TransactionMatchResult)
    (hok : matchBankTransactions bankTxs fetched tolerance = .ok res)
    (hnodup : (fetched.map (fun t => t.id)).Nodup) :
    res.matched.length + res.unmatchedBank.length = bankTxs.length ∧
    ∀ s : String,
      (res.matched.map (fun m => m.ynabTransaction.id) ++
        res.unmatchedYNAB.map (fun t => t.id)).count s ≤ 1 := by
  obtain ⟨hne, hres⟩ := matchBankTransactions_ok hok
  subst hres
  constructor
  · rw [matchCore_matched, matchCore_unmatchedBank,
      matchLoop_length tolerance (ledgerWindow bankTxs tolerance fetched)
        (sortByAbsDesc bankTxs) []]
    exact sortByAbsDesc_length bankTxs
  · intro s
    rw [List.count_append, matchCore_matched, matchCore_unmatchedYNAB]
    obtain ⟨h1, h2, h3⟩ :=
      matchLoop_ids tolerance (ledgerWindow bankTxs tolerance fetched) (sortByAbsDesc bankTxs) []
    have hysnodup : ((ledgerWindow bankTxs tolerance fetched).map (fun t => t.id)).Nodup :=
      hnodup.sublist ((ledgerWindow_sublist bankTxs tolerance fetched).map (fun t => t.id))
    by_cases hmem :
        s ∈ (matchLoop tolerance (ledgerWindow bankTxs tolerance fetched)
          (sortByAbsDesc bankTxs) []).2.1
    · have hB : List.count s
          (((ledgerWindow bankTxs tolerance fetched).filter (fun t =>
            !((matchLoop tolerance (ledgerWindow bankTxs tolerance fetched)
              (sortByAbsDesc bankTxs) []).2.1.contains t.id))).map (fun t => t.id)) = 0 := by
        rw [List.count_eq_zero]
        intro habs
        rcases List.mem_map.mp habs with ⟨t, ht, rfl⟩
        have hflt := (List.mem_filter.mp ht).2
        simp only [Bool.not_eq_true'] at hflt
        have hnotmem : t.id ∉ (matchLoop tolerance (ledgerWindow bankTxs tolerance fetched)
            (sortByAbsDesc bankTxs) []).2.1 := by simpa using hflt
        exact hnotmem hmem
      have hA := List.nodup_iff_count_le_one.mp h2 s
      omega
    · have hA : List.count s
          ((matchLoop tolerance (ledgerWindow bankTxs tolerance fetched)
            (sortByAbsDesc bankTxs) []).1.map (fun m => m.ynabTransaction.id)) = 0 := by
        rw [List.count_eq_zero]
        intro habs
        rcases List.mem_map.mp habs with ⟨m, hm, rfl⟩
        exact hmem (h1 m hm).1
      have hBnodup : (((ledgerWindow bankTxs tolerance fetched).filter (fun t =>
          !((matchLoop tolerance (ledgerWindow bankTxs tolerance fetched)
            (sortByAbsDesc bankTxs) []).2.1.contains t.id))).map (fun t => t.id)).Nodup :=
        hysnodup.sublist
          (List.Sublist.map (fun t : TransactionDetail => t.id)
            (List.filter_sublist (ledgerWindow bankTxs tolerance fetched)))
      have hB := List.nodup_iff_count_le_one.mp hBnodup s
      omega


/-- Witness for C1 at a concrete input. -/
theorem matchBankTransactions_partition_witness :
    (matchBankTransactions [wBank] [wLedger] 3 =
        .ok (matchCore 3 [wBank] (ledgerWindow [wBank] 3 [wLedger])) ∧
      (([wLedger] : List TransactionDetail).map (fun t => t.id)).Nodup) ∧
    ((matchCore 3 [wBank] (ledgerWindow [wBank] 3 [wLedger])).matched.length +
        (matchCore 3 [wBank] (ledgerWindow [wBank] 3 [wLedger])).unmatchedBank.length
          = ([wBank] : List BankTransaction).length ∧
      ∀ s : String,
        ((matchCore 3 [wBank] (ledgerWindow [wBank] 3 [wLedger])).matched.map
            (fun m => m.ynabTransaction.id) ++
          (matchCore 3 [wBank] (ledgerWindow [wBank] 3 [wLedger])).unmatchedYNAB.map
            (fun t => t.id)).count s ≤ 1) :=
  ⟨⟨rfl, by decide⟩,
    matchBankTransactions_partition [wBank] [wLedger] 3 _ rfl (by decide)⟩

/-- Claim C2: contrary to the spec, the matcher does fail on an empty bank
list.  `Math.min()` over no dates yields an Invalid Date whose `toISOString()`
throws `RangeError: Invalid time value` before any matching or summary
computation; the `length > 0 ? ... : 0` guard on the match rate is dead code
on this path. -/
theorem matchBankTransactions_empty_throws (fetched : List TransactionDetail)
    (tolerance : Nat) :
    matchBankTransactions [] fetched tolerance = .error "Invalid time value" := rfl

theorem evalCandidate_none_of_date {tolerance : Nat} {b : BankTransaction}
    {y : TransactionDetail} (h : tolerance < dateDifference b.date y.date) :
    evalCandidate tolerance b y = none := by
  unfold evalCandidate
  rw [if_pos h]

theorem amountReason_none {a1 a2 : Int} (h : 1000 < (a1 - a2).natAbs) :
    amountReason a1 a2 = none := by
  have hex : (a1 == a2) = false := by
    rw [beq_eq_false_iff_ne]
    intro habs
    rw [habs] at h
    simp at h
  have hcl : amountMatches a1 a2 1000 = false := by
    simp only [amountMatches, decide_eq_false_iff_not]
    omega
  unfold amountReason
  rw [hex, hcl]
  simp

theorem amountReason_some_slack {a1 a2 : Int} {ar : String}
    (h : amountReason a1 a2 = some ar) : (a1 - a2).natAbs ≤ 1000 := by
  by_cases hsl : (a1 - a2).natAbs ≤ 1000
  · exact hsl
  · rw [amountReason_none (by omega)] at h
    exact absurd h (by simp)

theorem evalCandidate_some_bounds {tolerance : Nat} {b : BankTransaction}
    {y : TransactionDetail} {c : Conf} {r : List String}
    (h : evalCandidate tolerance b y = some (c, r)) :
    dateDifference b.date y.date ≤ tolerance ∧ (b.amount - y.amount).natAbs ≤ 1000 := by
  by_cases hdd : tolerance < dateDifference b.date y.date
  · rw [evalCandidate_none_of_date hdd] at h
    exact absurd h (by simp)
  · refine ⟨Nat.le_of_not_lt hdd, ?_⟩
    unfold evalCandidate at h
    rw [if_neg hdd] at h
    cases har : amountReason b.amount y.amount with
    | none =>
      rw [har] at h
      exact absurd h (by simp)
    | some ar => exact amountReason_some_slack har

theorem evalCandidate_amount_gate {tolerance : Nat} {b : BankTransaction}
    {y : TransactionDetail} (h : 1000 < (b.amount - y.amount).natAbs) :
    evalCandidate tolerance b y = none := by
  by_cases hdd : tolerance < dateDifference b.date y.date
  · exact evalCandidate_none_of_date hdd
  · unfold evalCandidate
    rw [if_neg hdd, amountReason_none h]

/-- Claim C7: every pair the matcher actually proposes passed the eligibility
gates — the date difference is within the tolerance and the amount is within
the $1 (1000 milliunit) slack of the bank amount (so a $1.50 difference is
impossible) — the proposed ledger transaction is consumed exactly once, and
any ledger transaction whose amount differs by more than the slack is skipped
by the amount gate before any scoring (`evalCandidate` yields `none` for it
regardless of date or payee). -/
theorem matchBankTransactions_eligibility
    (bankTxs : List BankTransaction) (fetched : List TransactionDetail)
    (tolerance : Nat) (res : TransactionMatchResult) (m : TransactionMatch)
    (hok : matchBankTransactions bankTxs fetched tolerance = .ok res)
    (hm : m ∈ res.matched) :
    evalCandidate tolerance m.bankTransaction m.ynabTransaction =
        some (m.matchConfidence, m.matchReasons) ∧
    dateDifference m.bankTransaction.date m.ynabTransaction.date ≤ tolerance ∧
    (m.bankTransaction.amount - m.ynabTransaction.amount).natAbs ≤ 1000 ∧
    (res.matched.map (fun x => x.ynabTransaction.id)).count m.ynabTransaction.id = 1 ∧
    (∀ y : TransactionDetail, 1000 < (m.bankTransaction.amount - y.amount).natAbs →
      evalCandidate tolerance m.bankTransaction y = none) := by
  obtain ⟨hne, hres⟩ := matchBankTransactions_ok hok
  subst hres
  rw [matchCore_matched] at hm
  obtain ⟨hb, hy, hev⟩ :=
    matchLoop_matched_eval tolerance (ledgerWindow bankTxs tolerance fetched)
      (sortByAbsDesc bankTxs) [] m hm
  obtain ⟨hdd, hsl⟩ := evalCandidate_some_bounds hev
  refine ⟨hev, hdd, hsl, ?_, fun y hy => evalCandidate_amount_gate hy⟩
  rw [matchCore_matched]
  have hnd := (matchLoop_ids tolerance (ledgerWindow bankTxs tolerance fetched)
    (sortByAbsDesc bankTxs) []).2.1
  have hmem : m.ynabTransaction.id ∈
      (matchLoop tolerance (ledgerWindow bankTxs tolerance fetched)
        (sortByAbsDesc bankTxs) []).1.map (fun x => x.ynabTransaction.id) :=
    List.mem_map.mpr ⟨m, hm, rfl⟩
  have hle := List.nodup_iff_count_le_one.mp hnd m.ynabTransaction.id
  have hge := List.count_pos_iff.mpr hmem
  omega


/-- Witness for C7 at a concrete input. -/
theorem matchBankTransactions_eligibility_witness :
    (matchBankTransactions [wBank] [wLedger] 3 = .ok wRes ∧ wMatch ∈ wRes.matched) ∧
    (evalCandidate 3 wMatch.bankTransaction wMatch.ynabTransaction =
        some (wMatch.matchConfidence, wMatch.matchReasons) ∧
      dateDifference wMatch.bankTransaction.date wMatch.ynabTransaction.date ≤ 3 ∧
      (wMatch.bankTransaction.amount - wMatch.ynabTransaction.amount).natAbs ≤ 1000 ∧
      (wRes.matched.map (fun x => x.ynabTransaction.id)).count wMatch.ynabTransaction.id = 1 ∧
      (∀ y : TransactionDetail, 1000 < (wMatch.bankTransaction.amount - y.amount).natAbs →
        evalCandidate 3 wMatch.bankTransaction y = none)) :=
  ⟨⟨rfl, by decide⟩,
    matchBankTransactions_eligibility [wBank] [wLedger] 3 wRes wMatch rfl (by decide)⟩

/-- Claim C8: for every eligible pair, the confidence tier follows the
priority chain of the source — `exact` on exact amount, zero date difference
and payee similarity 1; else `high` on exact amount, date difference at most
one day and similarity above one half; else `medium` on exact amount within
the tolerance window; else `low`. -/
theorem evalCandidate_confidence
    (tolerance : Nat) (b : BankTransaction) (y : TransactionDetail)
    (c : Conf) (r : List String)
    (h : evalCandidate tolerance b y = some (c, r)) :
    c = if b.amount = y.amount ∧ dateDifference b.date y.date = 0 ∧
          payeeSimilarity b.payee y.payee_name = 1 then Conf.exact
        else if b.amount = y.amount ∧ dateDifference b.date y.date ≤ 1 ∧
          mkRat 1 2 < payeeSimilarity b.payee y.payee_name then Conf.high
        else if b.amount = y.amount ∧ dateDifference b.date y.date ≤ tolerance then Conf.medium
        else Conf.low := by
  by_cases hdd : tolerance < dateDifference b.date y.date
  · rw [evalCandidate_none_of_date hdd] at h
    exact absurd h (by simp)
  · unfold evalCandidate at h
    rw [if_neg hdd] at h
    cases har : amountReason b.amount y.amount with
    | none =>
      rw [har] at h
      exact absurd h (by simp)
    | some ar =>
      rw [har] at h
      simp only [Option.some.injEq, Prod.mk.injEq] at h
      rw [← h.1]
      unfold assignConfidence
      simp only [beq_iff_eq]

/-- Witness for C8 at a concrete input. -/
theorem evalCandidate_confidence_witness :
    evalCandidate 3 wBank wLedger = some (Conf.exact,
        ["Exact amount match", "Same date", "Exact payee match"]) ∧
    Conf.exact = if wBank.amount = wLedger.amount ∧
          dateDifference wBank.date wLedger.date = 0 ∧
          payeeSimilarity wBank.payee wLedger.payee_name = 1 then Conf.exact
        else if wBank.amount = wLedger.amount ∧ dateDifference wBank.date wLedger.date ≤ 1 ∧
          mkRat 1 2 < payeeSimilarity wBank.payee wLedger.payee_name then Conf.high
        else if wBank.amount = wLedger.amount ∧
          dateDifference wBank.date wLedger.date ≤ 3 then Conf.medium
        else Conf.low :=
  ⟨by decide, evalCandidate_confidence 3 wBank wLedger Conf.exact
    ["Exact amount match", "Same date", "Exact payee match"] (by decide)⟩

/-- Claim C9: the matcher processes the bank transactions in descending order
of absolute amount (a permutation of the input), every consumed ledger id is
consumed by at most one match, and within one bank transaction's scan the
chosen candidate is the first eligible candidate (in ledger fetch order)
attaining the maximal confidence tier: all earlier eligible candidates are
strictly lower, all later ones no higher. -/
theorem matchBankTransactions_greedy
    (bankTxs : List BankTransaction) (fetched : List TransactionDetail)
    (tolerance : Nat) (res : TransactionMatchResult)
    (b : BankTransaction) (used : List String) (ys : List TransactionDetail)
    (bf : TransactionDetail × Conf × List String)
    (hok : matchBankTransactions bankTxs fetched tolerance = .ok res)
    (hscan : scanCandidates tolerance b used ys none = some bf) :
    List.Perm (sortByAbsDesc bankTxs) bankTxs ∧
    (sortByAbsDesc bankTxs).Pairwise (fun a b => b.amount.natAbs ≤ a.amount.natAbs) ∧
    (res.matched.map (fun m => m.ynabTransaction.id)).Nodup ∧
    (∃ l1 l2, eligList tolerance b used ys = l1 ++ bf :: l2 ∧
      (∀ x ∈ l1, confOrder x.2.1 < confOrder bf.2.1) ∧
      (∀ x ∈ l2, confOrder x.2.1 ≤ confOrder bf.2.1)) := by
  obtain ⟨hne, hres⟩ := matchBankTransactions_ok hok
  subst hres
  refine ⟨sortByAbsDesc_perm bankTxs, sortByAbsDesc_pairwise bankTxs, ?_,
    scanCandidates_first_max hscan⟩
  rw [matchCore_matched]
  exact (matchLoop_ids tolerance (ledgerWindow bankTxs tolerance fetched)
    (sortByAbsDesc bankTxs) []).2.1

theorem jsSplitWS_ne_nil (l : List Char) : jsSplitWS l ≠ [] := by
  unfold jsSplitWS
  split
  · simp
  · rename_i htoks
    intro habs
    exact htoks (habs ▸ rfl)

theorem payeeSimilarity_some_some (s1 s2 : String) :
    payeeSimilarity (some s1) (some s2) =
      if (s1.data.isEmpty || s2.data.isEmpty) = true then 0
      else if trimChars (toLowerChars s1.data) = trimChars (toLowerChars s2.data) then 1
      else
        mkRat
          (tokenMatchCount (jsSplitWS (trimChars (toLowerChars s1.data)))
            (jsSplitWS (trimChars (toLowerChars s2.data))))
          (Nat.max (jsSplitWS (trimChars (toLowerChars s1.data))).length
            (jsSplitWS (trimChars (toLowerChars s2.data))).length) := rfl

theorem string_data_isEmpty_false {s : String} (h : s ≠ "") : s.data.isEmpty = false := by
  cases hd : s.data with
  | nil => exact absurd (String.ext (by rw [hd])) h
  | cons c cs => rfl

/-- Counterexample for C5: the source computes the token-match fraction over
the tokens of the FIRST payee string divided by the LARGER token count, not
over the shorter string as the claim says.  On ("a b", "a") the source yields
1/2 while the claimed shorter-string fraction is 1. -/
theorem payeeSimilarity_shorter_cex :
    payeeSimilarity (some "a b") (some "a") = mkRat 1 2 ∧
    payeeSimilaritySpec (some "a b") (some "a") = 1 ∧
    (mkRat 1 2 : ℚ) ≠ 1 :=
  ⟨by decide, by decide, by decide⟩

/-- Claim C5 (amended): for nonempty payee strings the similarity score lies
in [0,1]; it is 1 when the lowercased trimmed strings are equal; otherwise it
is the fraction of whitespace tokens of the FIRST payee string that are a
substring of, or contain, a token of the second, divided by the LARGER of the
two token counts (the source does not single out the shorter string, and the
fraction itself can also reach 1).  An empty or missing payee yields 0. -/
theorem payeeSimilarity_range (s1 s2 : String) (h1 : s1 ≠ "") (h2 : s2 ≠ "") :
    0 ≤ payeeSimilarity (some s1) (some s2) ∧
    payeeSimilarity (some s1) (some s2) ≤ 1 ∧
    (trimChars (toLowerChars s1.data) = trimChars (toLowerChars s2.data) →
      payeeSimilarity (some s1) (some s2) = 1) ∧
    (trimChars (toLowerChars s1.data) ≠ trimChars (toLowerChars s2.data) →
      payeeSimilarity (some s1) (some s2) =
        (tokenMatchCount (jsSplitWS (trimChars (toLowerChars s1.data)))
            (jsSplitWS (trimChars (toLowerChars s2.data))) : ℚ) /
          (Nat.max (jsSplitWS (trimChars (toLowerChars s1.data))).length
            (jsSplitWS (trimChars (toLowerChars s2.data))).length : ℚ)) := by
  have hguard : (s1.data.isEmpty || s2.data.isEmpty) = false := by
    rw [string_data_isEmpty_false h1, string_data_isEmpty_false h2]
    rfl
  by_cases heq : trimChars (toLowerChars s1.data) = trimChars (toLowerChars s2.data)
  · have hval : payeeSimilarity (some s1) (some s2) = 1 := by
      rw [payeeSimilarity_some_some, hguard]
      simp only [Bool.false_eq_true, if_false]
      rw [if_pos heq]
    rw [hval]
    exact ⟨by norm_num, by norm_num, fun _ => rfl, fun hne => absurd heq hne⟩
  · have hval : payeeSimilarity (some s1) (some s2) =
        mkRat (tokenMatchCount (jsSplitWS (trimChars (toLowerChars s1.data)))
            (jsSplitWS (trimChars (toLowerChars s2.data))))
          (Nat.max (jsSplitWS (trimChars (toLowerChars s1.data))).length
            (jsSplitWS (trimChars (toLowerChars s2.data))).length) := by
      rw [payeeSimilarity_some_some, hguard]
      simp only [Bool.false_eq_true, if_false]
      rw [if_neg heq]
    have hdiv : payeeSimilarity (some s1) (some s2) =
        (tokenMatchCount (jsSplitWS (trimChars (toLowerChars s1.data)))
            (jsSplitWS (trimChars (toLowerChars s2.data))) : ℚ) /
          (Nat.max (jsSplitWS (trimChars (toLowerChars s1.data))).length
            (jsSplitWS (trimChars (toLowerChars s2.data))).length : ℚ) := by
      rw [hval, Rat.mkRat_eq_div]
      push_cast
      rfl
    have hMpos : 0 < Nat.max (jsSplitWS (trimChars (toLowerChars s1.data))).length
        (jsSplitWS (trimChars (toLowerChars s2.data))).length := by
      have hne := jsSplitWS_ne_nil (trimChars (toLowerChars s1.data))
      have hlen : 0 < (jsSplitWS (trimChars (toLowerChars s1.data))).length :=
        List.length_pos.mpr hne
      exact Nat.lt_of_lt_of_le hlen (Nat.le_max_left _ _)
    have hmle : tokenMatchCount (jsSplitWS (trimChars (toLowerChars s1.data)))
        (jsSplitWS (trimChars (toLowerChars s2.data))) ≤
        Nat.max (jsSplitWS (trimChars (toLowerChars s1.data))).length
          (jsSplitWS (trimChars (toLowerChars s2.data))).length := by
      have hcount : tokenMatchCount (jsSplitWS (trimChars (toLowerChars s1.data)))
          (jsSplitWS (trimChars (toLowerChars s2.data))) ≤
          (jsSplitWS (trimChars (toLowerChars s1.data))).length :=
        List.countP_le_length _
      exact Nat.le_trans hcount (Nat.le_max_left _ _)
    refine ⟨?_, ?_, fun habs => absurd habs heq, fun _ => hdiv⟩
    · rw [hdiv]
      apply div_nonneg
      · exact_mod_cast Nat.zero_le _
      · exact_mod_cast Nat.zero_le _
    · rw [hdiv, div_le_one (by exact_mod_cast hMpos)]
      exact_mod_cast hmle

/-- Witness for C5 (amended) at a concrete input. -/
theorem payeeSimilarity_range_witness :
    (("ab cd" : String) ≠ "" ∧ ("zq" : String) ≠ "") ∧
    (0 ≤ payeeSimilarity (some "ab cd") (some "zq") ∧
      payeeSimilarity (some "ab cd") (some "zq") ≤ 1 ∧
      (trimChars (toLowerChars ("ab cd" : String).data) =
          trimChars (toLowerChars ("zq" : String).data) →
        payeeSimilarity (some "ab cd") (some "zq") = 1) ∧
      (trimChars (toLowerChars ("ab cd" : String).data) ≠
          trimChars (toLowerChars ("zq" : String).data) →
        payeeSimilarity (some "ab cd") (some "zq") =
          (tokenMatchCount (jsSplitWS (trimChars (toLowerChars ("ab cd" : String).data)))
              (jsSplitWS (trimChars (toLowerChars ("zq" : String).data))) : ℚ) /
            (Nat.max (jsSplitWS (trimChars (toLowerChars ("ab cd" : String).data))).length
              (jsSplitWS (trimChars (toLowerChars ("zq" : String).data))).length : ℚ))) :=
  ⟨⟨by decide, by decide⟩, payeeSimilarity_range "ab cd" "zq" (by decide) (by decide)⟩

/-! ### Lemmas about the reconciler -/

theorem reconcile_ok {env : LedgerEnv} {accountId : String}
    {targetMilli recDate : Int} {createAdj : Bool} {memoArg : Option String}
    {a1 a2 : Account} {txs : List TransactionDetail}
    (h1 : env.getAccount1 = .ok a1)
    (h2 : env.getAccountTransactions = .ok txs)
    (h4 : env.getAccount2 = .ok a2) :
    reconcileAccountWithAdjustment env accountId targetMilli recDate createAdj memoArg =
      .ok (reconcileOutcome env accountId targetMilli recDate createAdj memoArg a1 txs a2) := by
  unfold reconcileAccountWithAdjustment
  rw [h1, h2, h4]

theorem markStepOf_ok {env : LedgerEnv} {recDate : Int} {txs updated : List TransactionDetail}
    (hne : (transactionsToReconcile recDate txs).isEmpty = false)
    (hbulk : env.bulkUpdateTransactions
        ((transactionsToReconcile recDate txs).map
          (fun t => { id := t.id, cleared := .reconciled })) = .ok updated) :
    markStepOf env recDate txs = (updated.length, []) := by
  unfold markStepOf
  rw [hne, hbulk]
  simp

theorem adjStepOf_zero {env : LedgerEnv} {accountId : String}
    {targetMilli recDate : Int} {createAdj : Bool} {memoArg : Option String}
    {a2 : Account} (hz : targetMilli - a2.balance = 0) :
    adjStepOf env accountId targetMilli recDate createAdj memoArg a2 = (false, none, []) := by
  unfold adjStepOf
  rw [if_neg]
  intro habs
  exact habs.1 hz

theorem adjStepOf_created {env : LedgerEnv} {accountId : String}
    {targetMilli recDate : Int} {memoArg : Option String} {a2 : Account}
    {ps : List Payee} {ctx : TransactionDetail}
    (hz : targetMilli - a2.balance ≠ 0)
    (h5 : env.getPayees = .ok ps)
    (h6 : env.createTransaction (adjustmentDraft accountId recDate (targetMilli - a2.balance)
        (ps.any (fun p => p.id == RECONCILIATION_PAYEE_ID))
        (resolveMemo memoArg targetMilli)) = .ok ctx) :
    adjStepOf env accountId targetMilli recDate true memoArg a2 =
      (true, some ctx, payeeWarnings (ps.any (fun p => p.id == RECONCILIATION_PAYEE_ID))) := by
  unfold adjStepOf
  rw [if_pos ⟨hz, rfl⟩]
  simp only [createAdjustmentStep, h5, h6]

theorem adjStepOf_create_failed {env : LedgerEnv} {accountId : String}
    {targetMilli recDate : Int} {memoArg : Option String} {a2 : Account}
    {ps : List Payee} {e : String}
    (hz : targetMilli - a2.balance ≠ 0)
    (h5 : env.getPayees = .ok ps)
    (h6 : env.createTransaction (adjustmentDraft accountId recDate (targetMilli - a2.balance)
        (ps.any (fun p => p.id == RECONCILIATION_PAYEE_ID))
        (resolveMemo memoArg targetMilli)) = .error e) :
    adjStepOf env accountId targetMilli recDate true memoArg a2 =
      (false, none, payeeWarnings (ps.any (fun p => p.id == RECONCILIATION_PAYEE_ID)) ++
        ["Failed to create adjustment transaction: " ++ e]) := by
  unfold adjStepOf
  rw [if_pos ⟨hz, rfl⟩]
  simp only [createAdjustmentStep, h5, h6]

/-! ### Claim theorems for the reconciler -/

/-- Counterexample for C3: a failure of the post-mark account re-fetch (the
balance recomputation step) is rethrown as a fatal error, not recorded as a
warning with a completed outcome. -/
theorem reconcile_refetch_fatal_cex :
    reconcileAccountWithAdjustment
      { getAccount1 := .ok { name := "Checking", balance := 0 },
        getAccountTransactions := .ok [],
        bulkUpdateTransactions := fun _ => .ok [],
        getAccount2 := .error "network down",
        getPayees := .ok [],
        createTransaction := fun _ =>
          .ok { id := "adj", date := 0, amount := 0, payee_name := none,
                cleared := .reconciled } }
      "acc" 0 0 true none = .error "Reconciliation failed: network down" := rfl

/-- Claim C3 (amended): the reconciler returns a complete outcome exactly when
the initial account lookup, the initial transaction fetch AND the post-mark
account re-fetch all succeed; a failure of any of those three is fatal, while
failures of the batched status update, of payee resolution and of adjustment
creation only surface as warnings inside the returned outcome. -/
theorem reconcile_fatal_iff (env : LedgerEnv) (accountId : String)
    (targetMilli recDate : Int) (createAdj : Bool) (memoArg : Option String) :
    (∃ r, reconcileAccountWithAdjustment env accountId targetMilli recDate createAdj memoArg
        = .ok r) ↔
      ((∃ a, env.getAccount1 = .ok a) ∧ (∃ ts, env.getAccountTransactions = .ok ts) ∧
        (∃ a, env.getAccount2 = .ok a)) := by
  cases h1 : env.getAccount1 with
  | error e1 => simp [reconcileAccountWithAdjustment, h1]
  | ok a1 =>
    cases h2 : env.getAccountTransactions with
    | error e2 => simp [reconcileAccountWithAdjustment, h1, h2]
    | ok txs =>
      cases h4 : env.getAccount2 with
      | error e4 => simp [reconcileAccountWithAdjustment, h1, h2, h4]
      | ok a2 => simp [reconcileAccountWithAdjustment, h1, h2, h4]


/-- Counterexample for C4: the batched update was asked to mark one
transaction and returned zero results, yet the outcome carries NO warning
(`errors = none`); `transactions_reconciled` does equal the returned count.
Only a thrown update error produces a warning. -/
theorem reconcile_short_update_no_warning_cex :
    (transactionsToReconcile 0
        [{ id := "t1", date := 0, amount := -500, payee_name := none,
           cleared := .uncleared }]).length = 1 ∧
    envShort.bulkUpdateTransactions [{ id := "t1", cleared := .reconciled }] = .ok [] ∧
    reconcileAccountWithAdjustment envShort "acc" (-500) 0 true none =
      .ok { account_id := "acc", account_name := "Checking", reconciliation_date := 0,
            transactions_reconciled := 0, starting_balance := -500, target_balance := -500,
            actual_balance := -500, adjustment_needed := 0, adjustment_created := false,
            adjustment_transaction := none, errors := none } :=
  ⟨rfl, rfl, rfl⟩

/-- Claim C4 (amended): when the batched update returns successfully but with
fewer results than requested, the outcome's `transactions_reconciled` equals
the returned count (not the requested count) — but the warnings list stays
empty: no warning records the shortfall, a warning is pushed only when the
batched update call throws. -/
theorem reconcile_short_update_count
    (env : LedgerEnv) (accountId : String) (targetMilli recDate : Int)
    (memoArg : Option String) (a1 a2 : Account) (txs updated : List TransactionDetail)
    (h1 : env.getAccount1 = .ok a1)
    (h2 : env.getAccountTransactions = .ok txs)
    (h4 : env.getAccount2 = .ok a2)
    (hne : (transactionsToReconcile recDate txs).isEmpty = false)
    (hbulk : env.bulkUpdateTransactions
        ((transactionsToReconcile recDate txs).map
          (fun t => { id := t.id, cleared := .reconciled })) = .ok updated)
    (hshort : updated.length < (transactionsToReconcile recDate txs).length)
    (htarget : targetMilli = a2.balance) :
    ∃ r, reconcileAccountWithAdjustment env accountId targetMilli recDate true memoArg
        = .ok r ∧
      r.transactions_reconciled = updated.length ∧ r.errors = none := by
  refine ⟨reconcileOutcome env accountId targetMilli recDate true memoArg a1 txs a2,
    reconcile_ok h1 h2 h4, ?_, ?_⟩
  · show (markStepOf env recDate txs).1 = updated.length
    rw [markStepOf_ok hne hbulk]
  · show (if ((markStepOf env recDate txs).2 ++
        (adjStepOf env accountId targetMilli recDate true memoArg a2).2.2).isEmpty = true
      then none else some _) = none
    rw [markStepOf_ok hne hbulk, adjStepOf_zero (by rw [htarget]; exact sub_self _)]
    simp

/-- Witness for C4 (amended) at a concrete input. -/
theorem reconcile_short_update_count_witness :
    (envShort.getAccount1 = .ok { name := "Checking", balance := -500 } ∧
      envShort.getAccountTransactions = .ok
        [{ id := "t1", date := 0, amount := -500, payee_name := none,
           cleared := .uncleared }] ∧
      envShort.getAccount2 = .ok { name := "Checking", balance := -500 } ∧
      (transactionsToReconcile 0
        [{ id := "t1", date := 0, amount := -500, payee_name := none,
           cleared := .uncleared }]).isEmpty = false ∧
      (0 : Nat) < (transactionsToReconcile 0
        [{ id := "t1", date := 0, amount := -500, payee_name := none,
           cleared := .uncleared }]).length) ∧
    (∃ r, reconcileAccountWithAdjustment envShort "acc" (-500) 0 true none = .ok r ∧
      r.transactions_reconciled = 0 ∧ r.errors = none) := by
  refine ⟨⟨rfl, rfl, rfl, rfl, by decide⟩, ?_⟩
  have h := reconcile_short_update_count envShort "acc" (-500) 0 none
    { name := "Checking", balance := -500 } { name := "Checking", balance := -500 }
    [{ id := "t1", date := 0, amount := -500, payee_name := none, cleared := .uncleared }]
    [] rfl rfl rfl rfl rfl (by decide) rfl
  simpa using h


/-- Claim C6: with `createAdjustment` true and every ledger call succeeding,
the computed adjustment is target (milliunits) minus the post-mark balance
and is exactly the amount of the submitted draft; an adjustment transaction
is created precisely when that amount is nonzero, in which case the outcome
reports the target as the actual balance; a zero discrepancy creates nothing
and reports the (equal) post-mark balance. -/
theorem reconcile_adjustment_amount
    (env : LedgerEnv) (accountId : String) (targetMilli recDate : Int)
    (memoArg : Option String) (a1 a2 : Account) (txs : List TransactionDetail)
    (ps : List Payee) (ctx : TransactionDetail) (r : ReconciliationResult)
    (h1 : env.getAccount1 = .ok a1)
    (h2 : env.getAccountTransactions = .ok txs)
    (h4 : env.getAccount2 = .ok a2)
    (h5 : env.getPayees = .ok ps)
    (h6 : env.createTransaction (adjustmentDraft accountId recDate (targetMilli - a2.balance)
        (ps.any (fun p => p.id == RECONCILIATION_PAYEE_ID))
        (resolveMemo memoArg targetMilli)) = .ok ctx)
    (hr : reconcileAccountWithAdjustment env accountId targetMilli recDate true memoArg
        = .ok r) :
    r.adjustment_needed = targetMilli - a2.balance ∧
    (adjustmentDraft accountId recDate (targetMilli - a2.balance)
        (ps.any (fun p => p.id == RECONCILIATION_PAYEE_ID))
        (resolveMemo memoArg targetMilli)).amount = targetMilli - a2.balance ∧
    (targetMilli - a2.balance ≠ 0 →
      r.adjustment_created = true ∧ r.adjustment_transaction = some ctx ∧
      r.actual_balance = targetMilli) ∧
    (targetMilli - a2.balance = 0 →
      r.adjustment_created = false ∧ r.adjustment_transaction = none ∧
      r.actual_balance = a2.balance) := by
  rw [reconcile_ok h1 h2 h4, Except.ok.injEq] at hr
  subst hr
  refine ⟨rfl, rfl, ?_, ?_⟩
  · intro hz
    refine ⟨?_, ?_, ?_⟩
    · show (adjStepOf env accountId targetMilli recDate true memoArg a2).1 = true
      rw [adjStepOf_created hz h5 h6]
    · show (adjStepOf env accountId targetMilli recDate true memoArg a2).2.1 = some ctx
      rw [adjStepOf_created hz h5 h6]
    · show (if (adjStepOf env accountId targetMilli recDate true memoArg a2).1
          then targetMilli else a2.balance) = targetMilli
      rw [adjStepOf_created hz h5 h6]
      simp
  · intro hz
    refine ⟨?_, ?_, ?_⟩
    · show (adjStepOf env accountId targetMilli recDate true memoArg a2).1 = false
      rw [adjStepOf_zero hz]
    · show (adjStepOf env accountId targetMilli recDate true memoArg a2).2.1 = none
      rw [adjStepOf_zero hz]
    · show (if (adjStepOf env accountId targetMilli recDate true memoArg a2).1
          then targetMilli else a2.balance) = a2.balance
      rw [adjStepOf_zero hz]
      simp

/-- Witness for C6: the spec scenario — target 120000 milliunits against a
post-mark balance of 118500 yields adjustment 1500, a created adjustment
transaction, and a reported actual balance of 120000. -/
theorem reconcile_adjustment_amount_witness :
    (envAdj.getAccount1 = .ok { name := "Checking", balance := 119000 } ∧
      envAdj.getAccountTransactions = .ok [] ∧
      envAdj.getAccount2 = .ok { name := "Checking", balance := 118500 } ∧
      reconcileAccountWithAdjustment envAdj "acc" 120000 5 true none =
        .ok (reconcileOutcome envAdj "acc" 120000 5 true none
          { name := "Checking", balance := 119000 } []
          { name := "Checking", balance := 118500 })) ∧
    ((reconcileOutcome envAdj "acc" 120000 5 true none
        { name := "Checking", balance := 119000 } []
        { name := "Checking", balance := 118500 }).adjustment_needed = 1500 ∧
      (reconcileOutcome envAdj "acc" 120000 5 true none
        { name := "Checking", balance := 119000 } []
        { name := "Checking", balance := 118500 }).adjustment_created = true ∧
      (reconcileOutcome envAdj "acc" 120000 5 true none
        { name := "Checking", balance := 119000 } []
        { name := "Checking", balance := 118500 }).actual_balance = 120000) := by
  have h := reconcile_adjustment_amount envAdj "acc" 120000 5 none
    { name := "Checking", balance := 119000 } { name := "Checking", balance := 118500 }
    [] [{ id := RECONCILIATION_PAYEE_ID, name := "Reconciliation Balance Adjustment" }]
    { id := "adj", date := 5, amount := 1500, payee_name := none, cleared := .reconciled }
    (reconcileOutcome envAdj "acc" 120000 5 true none
      { name := "Checking", balance := 119000 } []
      { name := "Checking", balance := 118500 })
    rfl rfl rfl rfl rfl (reconcile_ok rfl rfl rfl)
  refine ⟨⟨rfl, rfl, rfl, reconcile_ok rfl rfl rfl⟩, h.1, ?_, ?_⟩
  · exact (h.2.2.1 (by decide)).1
  · exact (h.2.2.1 (by decide)).2.2


/-- Claim C10: when the adjustment creation call fails with a nonzero
discrepancy, the outcome never pretends the target was reached:
`adjustment_created` is false, `actual_balance` is the post-mark balance (not
the target), `adjustment_needed` still carries the discrepancy, no adjustment
transaction is attached, and the warnings list is nonempty. -/
theorem reconcile_adjustment_create_failure
    (env : LedgerEnv) (accountId : String) (targetMilli recDate : Int)
    (memoArg : Option String) (a1 a2 : Account) (txs : List TransactionDetail)
    (ps : List Payee) (e : String) (r : ReconciliationResult)
    (h1 : env.getAccount1 = .ok a1)
    (h2 : env.getAccountTransactions = .ok txs)
    (h4 : env.getAccount2 = .ok a2)
    (h5 : env.getPayees = .ok ps)
    (h6 : env.createTransaction (adjustmentDraft accountId recDate (targetMilli - a2.balance)
        (ps.any (fun p => p.id == RECONCILIATION_PAYEE_ID))
        (resolveMemo memoArg targetMilli)) = .error e)
    (hz : targetMilli - a2.balance ≠ 0)
    (hr : reconcileAccountWithAdjustment env accountId targetMilli recDate true memoArg
        = .ok r) :
    r.adjustment_created = false ∧ r.actual_balance = a2.balance ∧
    r.adjustment_needed = targetMilli - a2.balance ∧
    r.adjustment_transaction = none ∧ r.errors ≠ none := by
  rw [reconcile_ok h1 h2 h4, Except.ok.injEq] at hr
  subst hr
  refine ⟨?_, ?_, rfl, ?_, ?_⟩
  · show (adjStepOf env accountId targetMilli recDate true memoArg a2).1 = false
    rw [adjStepOf_create_failed hz h5 h6]
  · show (if (adjStepOf env accountId targetMilli recDate true memoArg a2).1
        then targetMilli else a2.balance) = a2.balance
    rw [adjStepOf_create_failed hz h5 h6]
    simp
  · show (adjStepOf env accountId targetMilli recDate true memoArg a2).2.1 = none
    rw [adjStepOf_create_failed hz h5 h6]
  · show (if ((markStepOf env recDate txs).2 ++
        (adjStepOf env accountId targetMilli recDate true memoArg a2).2.2).isEmpty = true
      then none else some _) ≠ none
    rw [adjStepOf_create_failed hz h5 h6]
    have hne : ((markStepOf env recDate txs).2 ++
        (payeeWarnings (ps.any (fun p => p.id == RECONCILIATION_PAYEE_ID)) ++
          ["Failed to create adjustment transaction: " ++ e])).isEmpty = false := by
      simp
    rw [hne]
    simp

/-- Witness for C10 at a concrete input. -/
theorem reconcile_adjustment_create_failure_witness :
    (envAdjFail.getAccount1 = .ok { name := "Checking", balance := 119000 } ∧
      envAdjFail.getAccount2 = .ok { name := "Checking", balance := 118500 } ∧
      ((120000 : Int) - 118500 ≠ 0) ∧
      reconcileAccountWithAdjustment envAdjFail "acc" 120000 5 true none =
        .ok (reconcileOutcome envAdjFail "acc" 120000 5 true none
          { name := "Checking", balance := 119000 } []
          { name := "Checking", balance := 118500 })) ∧
    ((reconcileOutcome envAdjFail "acc" 120000 5 true none
        { name := "Checking", balance := 119000 } []
        { name := "Checking", balance := 118500 }).adjustment_created = false ∧
      (reconcileOutcome envAdjFail "acc" 120000 5 true none
        { name := "Checking", balance := 119000 } []
        { name := "Checking", balance := 118500 }).actual_balance = 118500 ∧
      (reconcileOutcome envAdjFail "acc" 120000 5 true none
        { name := "Checking", balance := 119000 } []
        { name := "Checking", balance := 118500 }).adjustment_needed = 1500 ∧
      (reconcileOutcome envAdjFail "acc" 120000 5 true none
        { name := "Checking", balance := 119000 } []
        { name := "Checking", balance := 118500 }).adjustment_transaction = none ∧
      (reconcileOutcome envAdjFail "acc" 120000 5 true none
        { name := "Checking", balance := 119000 } []
        { name := "Checking", balance := 118500 }).errors ≠ none) := by
  have h := reconcile_adjustment_create_failure envAdjFail "acc" 120000 5 none
    { name := "Checking", balance := 119000 } { name := "Checking", balance := 118500 }
    [] [{ id := RECONCILIATION_PAYEE_ID, name := "Reconciliation Balance Adjustment" }]
    "create failed"
    (reconcileOutcome envAdjFail "acc" 120000 5 true none
      { name := "Checking", balance := 119000 } []
      { name := "Checking", balance := 118500 })
    rfl rfl rfl rfl rfl (by decide) (reconcile_ok rfl rfl rfl)
  exact ⟨⟨rfl, rfl, by decide, reconcile_ok rfl rfl rfl⟩, h⟩

/-- Witness for C9 at a concrete input. -/
theorem matchBankTransactions_greedy_witness :
    (matchBankTransactions [wBank] [wLedger] 3 = .ok wRes ∧
      scanCandidates 3 wBank [] [wLedger] none = some (wLedger, Conf.exact,
        ["Exact amount match", "Same date", "Exact payee match"])) ∧
    (List.Perm (sortByAbsDesc [wBank]) [wBank] ∧
      (sortByAbsDesc [wBank]).Pairwise (fun a b => b.amount.natAbs ≤ a.amount.natAbs) ∧
      (wRes.matched.map (fun m => m.ynabTransaction.id)).Nodup ∧
      (∃ l1 l2, eligList 3 wBank [] [wLedger] = l1 ++ (wLedger, Conf.exact,
          ["Exact amount match", "Same date", "Exact payee match"]) :: l2 ∧
        (∀ x ∈ l1, confOrder x.2.1 < confOrder Conf.exact) ∧
        (∀ x ∈ l2, confOrder x.2.1 ≤ confOrder Conf.exact))) :=
  ⟨⟨rfl, by decide⟩,
    matchBankTransactions_greedy [wBank] [wLedger] 3 wRes wBank [] [wLedger]
      (wLedger, Conf.exact, ["Exact amount match", "Same date", "Exact payee match"])
      rfl (by decide)⟩

end Ynab
